import Mathlib

/-!
Verification development for the lamecs entity-component-system registry
(src/lamecs.hpp). The C++ source is shallowly embedded: vectors become
lists, the paginated sparse set and the registry become structures with
explicit state passing, unordered maps become association lists, the
64-bit component bitset becomes a natural number, and operations that can
hit a LAMECS_ASSERT (process abort) or perform an out-of-range vector
access (undefined behaviour in C++) return Option, with none standing for
abort or out-of-range access. List.set is a no-op out of range, which is
how an out-of-range vector write (undefined behaviour) is modelled.
Reserve calls (capacity only) have no observable effect and are omitted.
-/

set_option maxRecDepth 20000

namespace lamecs

/-- Sentinel for absent, std::numeric_limits of size_t: 2 to the 64 minus one. -/
def tombstone : Nat := 2 ^ 64 - 1

/-- Registry parameter MAX_ENTITY_COUNT from the source. -/
def MAX_ENTITY_COUNT : Nat := 100000

/-- Registry parameter ENTITY_CHUNK_SIZE from the source. -/
def ENTITY_CHUNK_SIZE : Nat := 1000

/-- Registry parameter MAX_COMPONENT_COUNT from the source. -/
def MAX_COMPONENT_COUNT : Nat := 64

/-- Sparse set parameter SPARSE_PAGINATION_CHUNK_SIZE from the source. -/
def SPARSE_PAGINATION_CHUNK_SIZE : Nat := 1600

/-- null_entity sentinel, std::numeric_limits of unsigned int: 2 to the 32 minus one. -/
def null_entity : Nat := 2 ^ 32 - 1

/-- Model of std::vector resize(n, v): shrink to n, or grow by filling with v. -/
def listResize {α : Type} (l : List α) (n : Nat) (v : α) : List α :=
  if n ≤ l.length then l.take n else l ++ List.replicate (n - l.length) v

/-- Model of std::swap(l[i], l.back()). An out-of-range index (undefined
behaviour in C++) is modelled as a no-op. -/
def swapWithLast {α : Type} (l : List α) (i : Nat) : List α :=
  match l[i]?, l.getLast? with
  | some x, some y => (l.set i y).set (l.length - 1) x
  | _, _ => l

/-- Embedding of the paginated sparse_set template from the source: a dense
value array, a parallel array dense_to_sparse_arr (dense index to owner id),
and a paginated indirection array (entity id to dense index). -/
structure sparse_set (C : Type) where
  dense_to_sparse_arr : List Nat
  dense_arr : List C
  sparse_arr : List (List Nat)
deriving DecidableEq

/-- Default-constructed empty sparse_set. -/
def sparse_set.init {C : Type} : sparse_set C := ⟨[], [], []⟩

/-- Embedding of sparse_set get_dense_index: look up the page, then the slot,
with tombstone for anything out of range. -/
def sparse_set.get_dense_index {C : Type} (s : sparse_set C) (id : Nat) : Nat :=
  (s.sparse_arr.getD (id / SPARSE_PAGINATION_CHUNK_SIZE) []).getD
    (id % SPARSE_PAGINATION_CHUNK_SIZE) tombstone

/-- Embedding of sparse_set set_dense_index: lazily resize the page table and
the page (filled with tombstone), then write the slot. -/
def sparse_set.set_dense_index {C : Type} (s : sparse_set C) (id item : Nat) : sparse_set C :=
  let page := id / SPARSE_PAGINATION_CHUNK_SIZE
  let idx := id % SPARSE_PAGINATION_CHUNK_SIZE
  let sa := if s.sparse_arr.length ≤ page then listResize s.sparse_arr (page + 1) [] else s.sparse_arr
  let pg := sa.getD page []
  let pg := if pg.length ≤ idx then listResize pg SPARSE_PAGINATION_CHUNK_SIZE tombstone else pg
  { s with sparse_arr := sa.set page (pg.set idx item) }

/-- Embedding of sparse_set push. Faithful to the source: the owner-id entry
appended to dense_to_sparse_arr is the dense array size taken after the value
was appended, which the source writes as dense_arr_.size(). -/
def sparse_set.push {C : Type} (s : sparse_set C) (id : Nat) (item : C) : sparse_set C :=
  let s := s.set_dense_index id s.dense_arr.length
  let s := { s with dense_arr := s.dense_arr ++ [item] }
  { s with dense_to_sparse_arr := s.dense_to_sparse_arr ++ [s.dense_arr.length] }

/-- Embedding of sparse_set set: push when absent, otherwise overwrite the
dense slot in place and record the owner id. -/
def sparse_set.set {C : Type} (s : sparse_set C) (id : Nat) (item : C) : sparse_set C :=
  let index := s.get_dense_index id
  if index = tombstone then s.push id item
  else { s with dense_arr := s.dense_arr.set index item,
                dense_to_sparse_arr := s.dense_to_sparse_arr.set index id }

/-- Embedding of sparse_set remove: swap the target dense slot with the last,
repoint the indirection entry of the id recorded at the back of
dense_to_sparse_arr, mark the removed id absent, and pop. -/
def sparse_set.remove {C : Type} (s : sparse_set C) (id : Nat) : sparse_set C :=
  let deleted := s.get_dense_index id
  if deleted = tombstone ∨ s.dense_arr.isEmpty then s
  else
    let s := s.set_dense_index id tombstone
    let s := s.set_dense_index (s.dense_to_sparse_arr.getLastD 0) deleted
    let s := { s with dense_arr := swapWithLast s.dense_arr deleted,
                      dense_to_sparse_arr := swapWithLast s.dense_to_sparse_arr deleted }
    { s with dense_arr := s.dense_arr.dropLast,
             dense_to_sparse_arr := s.dense_to_sparse_arr.dropLast }

/-- Embedding of sparse_set contains. -/
def sparse_set.contains {C : Type} (s : sparse_set C) (id : Nat) : Bool :=
  s.get_dense_index id ≠ tombstone

/-- Embedding of the sparse_set index operator: none models both the
LAMECS_ASSERT on a tombstone index and an out-of-range dense read. -/
def sparse_set.getVal {C : Type} (s : sparse_set C) (id : Nat) : Option C :=
  s.dense_arr[s.get_dense_index id]?

/-- Embedding of sparse_set empty. -/
def sparse_set.isEmptySet {C : Type} (s : sparse_set C) : Bool :=
  s.dense_arr.length = 0

/-!
Registry embedding. Component types are modelled by natural-number type
keys (the source uses typeid names; only identity matters), component
values by natural numbers, and the 64-bit component bitset by a natural
number whose bits mirror the std::bitset. The unordered maps for groups
and bit positions become association lists; map iteration order, which is
unspecified in C++, is the list order.
-/

/-- Association-list lookup for the group table and the bit-position map. -/
def assocFind {β : Type} (l : List (Nat × β)) (k : Nat) : Option β :=
  (l.find? (fun p => p.1 == k)).map Prod.snd

/-- Model of unordered_map emplace with a default-constructed value: insert
only when the key is absent. -/
def assocEmplace {β : Type} (l : List (Nat × β)) (k : Nat) (v : β) : List (Nat × β) :=
  if (l.find? (fun p => p.1 == k)).isSome then l else l ++ [(k, v)]

/-- Model of mutating the mapped value of an existing key in place. -/
def assocUpdate {β : Type} (l : List (Nat × β)) (k : Nat) (f : β → β) : List (Nat × β) :=
  l.map (fun p => if p.1 == k then (p.1, f p.2) else p)

/-- Model of unordered_map erase by key. -/
def assocErase {β : Type} (l : List (Nat × β)) (k : Nat) : List (Nat × β) :=
  l.filter (fun p => p.1 != k)

/-- Model of the map index operator insert-or-assign used by
component_bit_positions_. -/
def assocSet {β : Type} (l : List (Nat × β)) (k : Nat) (v : β) : List (Nat × β) :=
  if (l.find? (fun p => p.1 == k)).isSome
  then l.map (fun p => if p.1 == k then (k, v) else p)
  else l ++ [(k, v)]

/-- Model of std::bitset assignment of 1 to one bit position. -/
def bitSet1 (b pos : Nat) : Nat := b ||| 2 ^ pos

/-- Model of std::bitset assignment of 0 to one bit position. -/
def bitSet0 (b pos : Nat) : Nat := if b.testBit pos then b - 2 ^ pos else b

/-- Embedding of the registry class state. The field names follow the
source, including the enitity_groups spelling. -/
structure registry where
  available_entity_ids : List Nat
  component_pools : List (sparse_set Nat)
  enitity_groups : List (Nat × sparse_set Nat)
  component_bit_positions : List (Nat × Nat)
  component_bitsets : sparse_set Nat
  entity_limit : Nat
deriving DecidableEq

/-- Embedding of registry get_component_position: the assigned bit position
of a type key, or tombstone when unregistered. -/
def registry.get_component_position (r : registry) (t : Nat) : Nat :=
  match assocFind r.component_bit_positions t with
  | some p => p
  | none => tombstone

/-- Embedding of registry register_component. Faithful to the source: the
abort fires only when strictly more than MAX_COMPONENT_COUNT positions are
already assigned, and the new position is the current pool count. -/
def registry.register_component (r : registry) (t : Nat) : Option registry :=
  if MAX_COMPONENT_COUNT < r.component_bit_positions.length then none
  else some { r with
    component_bit_positions := assocSet r.component_bit_positions t r.component_pools.length,
    component_pools := r.component_pools ++ [sparse_set.init] }

/-- Embedding of registry get_component_pool: the returned reference is
modelled as the pool index; registers the type first when unknown and
register_when_not_found holds, otherwise the assert aborts. -/
def registry.get_component_pool (r : registry) (t : Nat)
    (register_when_not_found : Bool) : Option (registry × Nat) :=
  if r.get_component_position t = tombstone then
    if register_when_not_found then
      match r.register_component t with
      | none => none
      | some r2 => some (r2, r2.get_component_position t)
    else none
  else some (r, r.get_component_position t)

/-- Embedding of registry contains_entity. -/
def registry.contains_entity (r : registry) (id : Nat) : Bool :=
  r.component_bitsets.contains id

/-- Embedding of registry get_component_bitset: the returned reference is
modelled as the dense index of the bitset entry; when absent, the entry is
created if create_when_not_found holds, otherwise the assert aborts. -/
def registry.get_component_bitset_ref (r : registry) (id : Nat)
    (create_when_not_found : Bool) : Option (registry × Nat) :=
  if r.component_bitsets.contains id then
    some (r, r.component_bitsets.get_dense_index id)
  else if create_when_not_found then
    let r := { r with component_bitsets := r.component_bitsets.push id 0 }
    some (r, r.component_bitsets.get_dense_index id)
  else none

/-- Embedding of registry get_component_bitset_mask over a list of type
keys; aborts when a requested type is unregistered. -/
def registry.get_component_bitset_mask (r : registry) (ts : List Nat) : Option Nat :=
  ts.foldl (fun acc t =>
    match acc with
    | none => none
    | some m =>
      let pos := r.get_component_position t
      if pos = tombstone then none else some (bitSet1 m pos)) (some 0)

/-- Embedding of registry remove_entity_from_group: default-construct the
group when absent, remove the id, and erase the group when now empty. -/
def registry.remove_entity_from_group (r : registry) (b id : Nat) : registry :=
  let gs := assocEmplace r.enitity_groups b sparse_set.init
  let gs := assocUpdate gs b (fun g => g.remove id)
  let g := (assocFind gs b).getD sparse_set.init
  { r with enitity_groups := if g.isEmptySet then assocErase gs b else gs }

/-- Embedding of registry add_entity_to_group: default-construct the group
when absent, then push the id into it. -/
def registry.add_entity_to_group (r : registry) (b id : Nat) : registry :=
  let gs := assocEmplace r.enitity_groups b sparse_set.init
  { r with enitity_groups := assocUpdate gs b (fun g => g.push id id) }

/-- Embedding of registry generate_available_entity_chuck (source spelling):
extend the id frontier by one chunk, bounded by MAX_ENTITY_COUNT, queueing
the fresh ids; false when the frontier is already at the maximum. -/
def registry.generate_available_entity_chuck (r : registry) : registry × Bool :=
  if r.entity_limit = MAX_ENTITY_COUNT then (r, false)
  else
    let new_limit := min (r.entity_limit + ENTITY_CHUNK_SIZE) MAX_ENTITY_COUNT
    ({ r with
        available_entity_ids :=
          r.available_entity_ids ++ List.range' r.entity_limit (new_limit - r.entity_limit),
        entity_limit := new_limit }, true)

/-- Embedding of the registry constructor: empty state, then one chunk. -/
def registry.init : registry :=
  (registry.generate_available_entity_chuck ⟨[], [], [], [], sparse_set.init, 0⟩).1

/-- Embedding of registry create_entity: serve the queue front, generating a
chunk first when the queue is empty; null_entity when generation fails. -/
def registry.create_entity (r : registry) : registry × Nat :=
  if r.available_entity_ids.isEmpty then
    let rg := r.generate_available_entity_chuck
    if rg.2 then
      ({ rg.1 with available_entity_ids := rg.1.available_entity_ids.tail },
        rg.1.available_entity_ids.headD null_entity)
    else (rg.1, null_entity)
  else
    ({ r with available_entity_ids := r.available_entity_ids.tail },
      r.available_entity_ids.headD null_entity)

/-- Embedding of registry emplace for type key t: informational no-op on
null_entity, else write the pool, then migrate the group with the bit set.
The bitset reference of the source is modelled by the dense index k. -/
def registry.emplace (r : registry) (t id v : Nat) : Option registry :=
  if id = null_entity then some r
  else
    match r.get_component_pool t true with
    | none => none
    | some (r, pos) =>
      let pool := (r.component_pools.getD pos sparse_set.init).set id v
      let r := { r with component_pools := r.component_pools.set pos pool }
      match r.get_component_bitset_ref id true with
      | none => none
      | some (r, k) =>
        match r.component_bitsets.dense_arr[k]? with
        | none => none
        | some b =>
          let r := r.remove_entity_from_group b id
          let pos2 := r.get_component_position t
          if pos2 = tombstone then none
          else
            let b2 := bitSet1 b pos2
            let r := { r with component_bitsets :=
              { r.component_bitsets with
                  dense_arr := r.component_bitsets.dense_arr.set k b2 } }
            some (r.add_entity_to_group b2 id)

/-- Embedding of registry remove for type key t: informational no-op when
the entity has no bitset entry, else remove from the pool (registering the
type first when unknown, as get_component_pool does) and migrate the group
with the bit cleared. -/
def registry.remove (r : registry) (t id : Nat) : Option registry :=
  if ¬ r.contains_entity id then some r
  else
    match r.get_component_pool t true with
    | none => none
    | some (r, pos) =>
      let pool := (r.component_pools.getD pos sparse_set.init).remove id
      let r := { r with component_pools := r.component_pools.set pos pool }
      match r.get_component_bitset_ref id false with
      | none => none
      | some (r, k) =>
        match r.component_bitsets.dense_arr[k]? with
        | none => none
        | some b =>
          let r := r.remove_entity_from_group b id
          let pos2 := r.get_component_position t
          if pos2 = tombstone then none
          else
            let b2 := bitSet0 b pos2
            let r := { r with component_bitsets :=
              { r.component_bitsets with
                  dense_arr := r.component_bitsets.dense_arr.set k b2 } }
            some (r.add_entity_to_group b2 id)

/-- Embedding of registry remove_entity: informational no-op when the entity
has no bitset entry, else read the bitset, drop the bitset entry, queue the
id for recycling, drop group membership, and remove the id from the pool of
every set bit. An out-of-range pool index (undefined behaviour) is a no-op. -/
def registry.remove_entity (r : registry) (id : Nat) : Option registry :=
  if ¬ r.contains_entity id then some r
  else
    match r.get_component_bitset_ref id true with
    | none => none
    | some (r, k) =>
      match r.component_bitsets.dense_arr[k]? with
      | none => none
      | some b =>
        let r := { r with component_bitsets := r.component_bitsets.remove id }
        let r := { r with available_entity_ids := r.available_entity_ids ++ [id] }
        let r := r.remove_entity_from_group b id
        let pools := (List.range MAX_COMPONENT_COUNT).foldl
          (fun ps i =>
            if b.testBit i
            then ps.set i ((ps.getD i sparse_set.init).remove id)
            else ps)
          r.component_pools
        some { r with component_pools := pools }

/-- Embedding of the private registry get for type key t: aborts (none) when
the type is unregistered, the entity has no bitset entry, or the pool has no
entry for it; an out-of-range dense read is also none. -/
def registry.get (r : registry) (t id : Nat) : Option Nat :=
  match r.get_component_pool t false with
  | none => none
  | some (r, pos) =>
    let pool := r.component_pools.getD pos sparse_set.init
    if ¬ r.contains_entity id then none
    else if ¬ pool.contains id then none
    else pool.getVal id

/-- Embedding of registry view over a list of type keys: build the mask,
then for every group whose key is a superset of the mask list its dense
entities with their fetched component values; none when the mask build or
any component fetch aborts. -/
def registry.view (r : registry) (ts : List Nat) : Option (List (Nat × List Nat)) :=
  match r.get_component_bitset_mask ts with
  | none => none
  | some mask =>
    let gs := r.enitity_groups.filter (fun p => p.1 &&& mask == mask)
    (gs.mapM (fun (p : Nat × sparse_set Nat) => p.2.dense_arr.mapM (fun id =>
      (ts.mapM (fun t => r.get t id)).map (fun vals => (id, vals))))).map List.flatten

/-!
Concrete states and traces used by the claim theorems. Entity ids are the
ones create_entity hands out (0, 1, 2, ...); component type keys are small
naturals standing for distinct C++ types.
-/

/-- Dense-side half of the sparse-set owner invariant: every dense slot j,
fed its recorded owner id through the indirection layer, maps back to j. -/
def sparse_set.ownersConsistent (s : sparse_set Nat) : Bool :=
  (List.range s.dense_arr.length).all (fun j =>
    s.get_dense_index (s.dense_to_sparse_arr.getD j tombstone) == j)

/-- One upsert of value 7 under key 0 into an empty sparse set. -/
def sC1 : sparse_set Nat := sparse_set.init.set 0 7

/-- Create entities 0 and 1, give both a component of type 0. -/
def traceC2pre : Option registry :=
  let a := registry.init.create_entity
  let b := a.1.create_entity
  match b.1.emplace 0 0 10 with
  | none => none
  | some r => r.emplace 0 1 20

/-- traceC2pre followed by removing the type-0 component of entity 0. -/
def traceC2 : Option registry :=
  match traceC2pre with
  | none => none
  | some r => r.remove 0 0

/-- Create entities 0, 1, 2; emplace type 0 on entity 0 twice and on
entities 1 and 2 once; then remove the type-0 component of entity 1. -/
def traceC4 : Option registry :=
  let a := registry.init.create_entity
  let b := a.1.create_entity
  let c := b.1.create_entity
  match c.1.emplace 0 0 10 with
  | none => none
  | some r =>
  match r.emplace 0 1 20 with
  | none => none
  | some r =>
  match r.emplace 0 0 11 with
  | none => none
  | some r =>
  match r.emplace 0 2 30 with
  | none => none
  | some r => r.remove 0 1

/-- The registry state reached by traceC4. -/
def rC4 : registry := traceC4.getD registry.init

/-- Create entity 0, give it a component (so it owns a bitset entry), then
remove it, which queues id 0 for recycling behind the remaining fresh ids. -/
def traceC6 : Option registry :=
  let a := registry.init.create_entity
  match a.1.emplace 0 0 7 with
  | none => none
  | some r => r.remove_entity 0

/-- The registry state reached by traceC6. -/
def rC6 : registry := traceC6.getD registry.init

/-- A registry with 64 distinct component types registered. -/
def r64 : registry :=
  (List.range 64).foldl (fun r t => (r.register_component t).getD r) registry.init

/-- A registry with component type 3 registered once. -/
def rA8 : registry := (registry.init.register_component 3).getD registry.init

/-- rA8 after additionally registering component type 5. -/
def rB8 : registry := (rA8.register_component 5).getD rA8

/-- Entity 0 alive with a component of registered type 0; type 1 unknown. -/
def rW : registry :=
  (((registry.init.create_entity).1).emplace 0 0 7).getD registry.init

/-- rW after remove of the unregistered type 1 on entity 0. -/
def rW2 : registry := (rW.remove 1 0).getD rW

/-!
Helper lemmas about lists, association lists and the sparse set, shared by
the general claim theorems below.
-/

theorem listSetSame {α : Type} (l : List α) (k : Nat) (x : α)
    (h : l[k]? = some x) : l.set k x = l := by
  induction l generalizing k with
  | nil => simp at h
  | cons a l ih =>
    cases k with
    | zero => simp at h; simp [h]
    | succ m => simp at h; simp [List.set, ih m h]

theorem listSetAppendLast {α : Type} (l : List α) (a b : α) :
    (l ++ [a]).set l.length b = l ++ [b] := by
  induction l with
  | nil => simp
  | cons x l ih => simp [List.set, ih]

theorem listGetDAppendLength {α : Type} (l : List α) (a d : α) :
    (l ++ [a]).getD l.length d = a := by
  induction l with
  | nil => simp
  | cons x l ih =>
    simp only [List.cons_append, List.length_cons, List.getD_cons_succ]
    exact ih

theorem assocFind_append_self {β : Type} (l : List (Nat × β)) (k : Nat) (v : β)
    (h : assocFind l k = none) : assocFind (l ++ [(k, v)]) k = some v := by
  induction l with
  | nil => simp [assocFind]
  | cons p l ih =>
    simp only [assocFind, List.find?] at h ⊢
    cases hp : (p.1 == k) with
    | true => simp [hp] at h
    | false =>
      simp only [hp] at h ⊢
      exact ih h

theorem assocFind_append_other {β : Type} (l : List (Nat × β)) (k k2 : Nat) (v : β)
    (h : k2 ≠ k) : assocFind (l ++ [(k, v)]) k2 = assocFind l k2 := by
  induction l with
  | nil =>
    simp only [assocFind, List.nil_append, List.find?]
    have : (k == k2) = false := by simp [Ne.symm h]
    simp [this]
  | cons p l ih =>
    simp only [assocFind, List.cons_append, List.find?] at ih ⊢
    cases hp : (p.1 == k2) with
    | true => simp [hp]
    | false => simp only [hp]; exact ih

theorem assocFind_mem_snd {β : Type} (l : List (Nat × β)) (k : Nat) (v : β)
    (h : assocFind l k = some v) : v ∈ l.map Prod.snd := by
  induction l with
  | nil => simp [assocFind] at h
  | cons p l ih =>
    simp only [assocFind, List.find?] at h
    cases hp : (p.1 == k) with
    | true => simp [hp] at h; simp [h]
    | false =>
      simp only [hp] at h
      simp only [List.map_cons, List.mem_cons]
      exact Or.inr (ih h)

theorem assocSet_absent {β : Type} (l : List (Nat × β)) (k : Nat) (v : β)
    (h : assocFind l k = none) : assocSet l k v = l ++ [(k, v)] := by
  have hf : l.find? (fun p => p.1 == k) = none := by
    cases hf0 : l.find? (fun p => p.1 == k) with
    | none => rfl
    | some p => simp [assocFind, hf0] at h
  simp [assocSet, hf]

theorem assocFind_mapSet_other {β : Type} (l : List (Nat × β)) (k k2 : Nat) (v : β)
    (h : k2 ≠ k) :
    assocFind (l.map (fun p => if p.1 == k then (k, v) else p)) k2 = assocFind l k2 := by
  induction l with
  | nil => rfl
  | cons p l ih =>
    by_cases hp : p.1 = k
    · have h2 : ¬ p.1 = k2 := by rw [hp]; exact Ne.symm h
      have hb : (p.1 == k) = true := by simp [hp]
      have h1 : (k == k2) = false := by simp [Ne.symm h]
      have h2b : (p.1 == k2) = false := by simp [h2]
      simp only [List.map_cons, assocFind, List.find?, hb, if_true, h1, h2b]
      exact ih
    · have hb : (p.1 == k) = false := by simp [hp]
      simp only [List.map_cons, assocFind, List.find?, hb]
      simp only [Bool.false_eq_true, if_false]
      cases hq : (p.1 == k2) with
      | true => simp
      | false => exact ih

theorem assocSet_find_other {β : Type} (l : List (Nat × β)) (k k2 : Nat) (v : β)
    (h : k2 ≠ k) : assocFind (assocSet l k v) k2 = assocFind l k2 := by
  unfold assocSet
  split
  · exact assocFind_mapSet_other l k k2 v h
  · exact assocFind_append_other l k k2 v h

theorem sparse_remove_init {C : Type} (id : Nat) :
    (sparse_set.init : sparse_set C).remove id = sparse_set.init := by
  simp [sparse_set.remove, sparse_set.get_dense_index, sparse_set.init]

theorem range'_cons (a n : Nat) (h : 0 < n) :
    List.range' a n = a :: List.range' (a + 1) (n - 1) := by
  cases n with
  | zero => omega
  | succ m => simp [List.range'_succ]

theorem listGetElemGetD {α : Type} (l : List α) (k : Nat) (d : α) (h : k < l.length) :
    l[k]? = some (l.getD k d) := by
  induction l generalizing k with
  | nil => simp at h
  | cons a l ih =>
    cases k with
    | zero => simp
    | succ m =>
      simp only [List.length_cons] at h
      simpa using ih m (by omega)

theorem get_component_position_congr (r1 r2 : registry) (t : Nat)
    (h : r1.component_bit_positions = r2.component_bit_positions) :
    r1.get_component_position t = r2.get_component_position t := by
  unfold registry.get_component_position
  rw [h]

theorem get_component_bitset_ref_fields (r r3 : registry) (id k : Nat) (c : Bool)
    (h : r.get_component_bitset_ref id c = some (r3, k)) :
    r3.component_bit_positions = r.component_bit_positions ∧
    r3.component_pools = r.component_pools ∧
    r3.enitity_groups = r.enitity_groups ∧
    r3.available_entity_ids = r.available_entity_ids ∧
    r3.entity_limit = r.entity_limit := by
  unfold registry.get_component_bitset_ref at h
  split at h
  · cases h
    exact ⟨rfl, rfl, rfl, rfl, rfl⟩
  · split at h
    · cases h
      exact ⟨rfl, rfl, rfl, rfl, rfl⟩
    · exact Option.noConfusion h

theorem create_entity_allocator_only (r : registry) :
    ((r.create_entity).1).component_bitsets = r.component_bitsets ∧
    ((r.create_entity).1).enitity_groups = r.enitity_groups ∧
    ((r.create_entity).1).component_pools = r.component_pools ∧
    ((r.create_entity).1).component_bit_positions = r.component_bit_positions := by
  unfold registry.create_entity registry.generate_available_entity_chuck
  split <;> [skip; simp]
  split <;> simp

theorem get_component_pool_position_preserved (r rr : registry) (t t2 pos : Nat)
    (hp : r.get_component_position t ≠ tombstone)
    (h : r.get_component_pool t2 true = some (rr, pos)) :
    rr.get_component_position t = r.get_component_position t := by
  unfold registry.get_component_pool at h
  split at h
  · next ht2 =>
    rw [if_pos rfl] at h
    split at h
    · exact Option.noConfusion h
    · next r2 hreg =>
      cases h
      unfold registry.register_component at hreg
      split at hreg
      · exact Option.noConfusion hreg
      · cases hreg
        have ht2t : t ≠ t2 := by
          intro he
          rw [he] at hp
          exact hp ht2
        unfold registry.get_component_position
        rw [assocSet_find_other _ _ _ _ ht2t]
  · cases h
    rfl

/-!
Claim theorems.
-/

/-- C1: the claimed sparse-set invariant fails on the code. After the single
upsert set(0, 7) from the empty set, key 0 is present at dense slot 0, yet
the owner recorded in the parallel owner-id array for slot 0 is 1, not 0
(push appends the post-push dense size instead of the key), so the claimed
owner condition is already false; and the follow-up remove(0) leaves the
never-inserted key 1 reported present while data() is empty, a stale entry. -/
theorem C1_sparse_owner_invariant_refuted :
    sC1.contains 0 = true ∧
    sC1.get_dense_index 0 = 0 ∧
    sC1.dense_to_sparse_arr.getD 0 tombstone = 1 ∧
    sparse_set.ownersConsistent sC1 = false ∧
    (sC1.remove 0).contains 1 = true ∧
    (sC1.remove 0).dense_arr = [] := by decide

/-- C2: after emplace of type 0 with value 10 on entity 0 and value 20 on
entity 1, get(type 0, entity 1) correctly returns 20; but after the
interleaved remove of the type-0 component of entity 0 (a different entity),
get(type 0, entity 1) no longer returns 20: the pool indirection for entity
1 still points at dense slot 1 while the dense array has shrunk to one
element, so the source reads past the end (undefined behaviour), modelled
here as none. The claim says interleaved operations on other entity ids
leave the value readable. -/
theorem C2_get_broken_by_unrelated_remove :
    (traceC2pre.bind (fun r => r.get 0 1)) = some 20 ∧
    traceC2.isSome = true ∧
    (traceC2.bind (fun r => r.get 0 1)) = none := by decide

/-- C3: in the state reached by traceC4, entities 0 and 2 are alive and
their stored bitsets have the bit of type 0 set, so the claim says
view(type 0) returns exactly those entities with their values; instead the
group keyed by bitset 1 still lists entity 1, whose type-0 component was
removed, so the component fetch inside view hits the missing-component
assert of get (process abort, modelled as none). -/
theorem C3_view_refuted :
    traceC4.isSome = true ∧
    rC4.contains_entity 0 = true ∧
    rC4.component_bitsets.getVal 0 = some 1 ∧
    rC4.contains_entity 2 = true ∧
    rC4.component_bitsets.getVal 2 = some 1 ∧
    rC4.view [0] = none := by decide

/-- C4: in the state reached by traceC4 all three entities are alive, the
stored bitsets are 1, 0, 1, but the group table lists entity 1 in both
remaining groups (keys 1 and 0) and lists alive entity 0 in no group at
all, refuting exactly-one membership, key-matches-bitset, disjointness and
union-equals-alive. Group membership is read off the dense entity list that
view iterates. -/
theorem C4_group_invariant_refuted :
    traceC4.isSome = true ∧
    rC4.contains_entity 0 = true ∧
    rC4.contains_entity 1 = true ∧
    rC4.contains_entity 2 = true ∧
    rC4.component_bitsets.getVal 0 = some 1 ∧
    rC4.component_bitsets.getVal 1 = some 0 ∧
    rC4.enitity_groups.map (fun p => (p.1, p.2.dense_arr)) = [(1, [1, 2]), (0, [1])] ∧
    rC4.enitity_groups.all (fun p => ¬ p.2.dense_arr.contains 0) = true ∧
    rC4.enitity_groups.countP (fun p => p.2.dense_arr.contains 1) = 2 := by decide

/-- C5 counterexample: entity id 5 was never returned by create_entity and
is not alive in the fresh registry, yet emplace(type 0, id 5, 7) is not a
no-op: it creates a bitset entry for id 5 and changes the registry state,
refuting the claim that every such call leaves the state unchanged. -/
theorem C5_emplace_on_nonalive_changes_state :
    registry.init.contains_entity 5 = false ∧
    (registry.init.emplace 0 5 7).map (fun r => r.contains_entity 5) = some true ∧
    ¬ (registry.init.emplace 0 5 7 = some registry.init) := by decide

/-- C5 amended: emplace is a recoverable no-op only for null_entity; remove
and remove_entity are recoverable no-ops, leaving the state unchanged, for
every id without a bitset entry. -/
theorem C5_amended_noop_cases (r : registry) (t id v : Nat) :
    r.emplace t null_entity v = some r ∧
    (r.contains_entity id = false →
      r.remove t id = some r ∧ r.remove_entity id = some r) := by
  refine ⟨?_, fun h => ⟨?_, ?_⟩⟩
  · simp [registry.emplace]
  · simp [registry.remove, h]
  · simp [registry.remove_entity, h]

/-- C5 amended, concrete witness at the fresh registry and id 5. -/
theorem C5_amended_noop_cases_witness :
    registry.init.emplace 0 null_entity 7 = some registry.init ∧
    registry.init.remove 0 5 = some registry.init ∧
    registry.init.remove_entity 5 = some registry.init :=
  ⟨(C5_amended_noop_cases registry.init 0 5 7).1,
   (C5_amended_noop_cases registry.init 0 5 7).2 (by decide)⟩

/-- C6 counterexample: after traceC6 the recycled id 0 is pending at the
back of the allocator queue, yet create_entity returns the fresh id 1 that
was queued at construction, refuting the claim that a recycled id is
returned whenever one is pending. -/
theorem C6_recycled_id_not_prioritized :
    traceC6.isSome = true ∧
    rC6.available_entity_ids.getLast? = some 0 ∧
    (rC6.create_entity).2 = 1 := by decide

/-- C6 amended: ids come from one FIFO queue into which both fresh chunk
ids and recycled ids are pushed: create_entity always serves the queue
front; when the queue is empty and the frontier is below MAX_ENTITY_COUNT
it queues the fresh chunk starting at the frontier and serves its first id;
exhaustion (null_entity, state unchanged) is reported exactly when the
queue is empty and the frontier equals MAX_ENTITY_COUNT; and remove_entity
appends the recycled id at the back of that same queue, behind any pending
fresh ids, so recycled ids are reused first-in-first-out but only after all
ids queued before them. -/
theorem C6_amended_single_fifo_allocator (r r2 : registry) (id x : Nat) (xs : List Nat) :
    (r.available_entity_ids = x :: xs →
      r.create_entity = ({ r with available_entity_ids := xs }, x)) ∧
    (r.available_entity_ids = [] → r.entity_limit < MAX_ENTITY_COUNT →
      (r.create_entity).2 = r.entity_limit ∧
      (r.create_entity).1.entity_limit =
        min (r.entity_limit + ENTITY_CHUNK_SIZE) MAX_ENTITY_COUNT ∧
      (r.create_entity).1.available_entity_ids =
        List.range' (r.entity_limit + 1)
          (min (r.entity_limit + ENTITY_CHUNK_SIZE) MAX_ENTITY_COUNT - (r.entity_limit + 1))) ∧
    (r.available_entity_ids = [] → r.entity_limit = MAX_ENTITY_COUNT →
      r.create_entity = (r, null_entity)) ∧
    (r.contains_entity id = true → r.remove_entity id = some r2 →
      r2.available_entity_ids = r.available_entity_ids ++ [id]) := by
  refine ⟨?_, ?_, ?_, ?_⟩
  · intro h
    simp [registry.create_entity, h]
  · intro h hlim
    have hne : ¬ (r.entity_limit = MAX_ENTITY_COUNT) := by omega
    have hx : 0 < min (r.entity_limit + ENTITY_CHUNK_SIZE) MAX_ENTITY_COUNT - r.entity_limit := by
      simp only [ENTITY_CHUNK_SIZE, MAX_ENTITY_COUNT] at *
      omega
    unfold registry.create_entity registry.generate_available_entity_chuck
    rw [h]
    simp only [List.isEmpty_nil, if_true, if_neg hne, List.nil_append]
    rw [range'_cons _ _ hx]
    refine ⟨rfl, trivial, ?_⟩
    simp only [List.tail_cons]
    congr 1
  · intro h hmax
    unfold registry.create_entity registry.generate_available_entity_chuck
    rw [h]
    simp [hmax]
  · intro hc h2
    have hc2 : r.component_bitsets.contains id = true := hc
    unfold registry.remove_entity at h2
    rw [if_neg (by simp [registry.contains_entity, hc2])] at h2
    split at h2
    · exact Option.noConfusion h2
    · next rr k heq =>
      rw [registry.get_component_bitset_ref, if_pos hc2] at heq
      obtain ⟨hrr, hk⟩ := Prod.mk.injEq .. ▸ Option.some.injEq .. ▸ heq
      subst hrr
      split at h2
      · exact Option.noConfusion h2
      · next b hbk =>
        cases h2
        simp [registry.remove_entity_from_group]

/-- C6 amended, concrete witness: the fresh registry serves the front of
its initial chunk queue. -/
theorem C6_amended_single_fifo_allocator_witness :
    registry.init.create_entity =
      ({ registry.init with available_entity_ids := List.range' 1 999 }, 0) :=
  (C6_amended_single_fifo_allocator registry.init registry.init 0 0
    (List.range' 1 999)).1 (by decide)

/-- C7: the registration guard is off by one. With all 64 bit positions
assigned (r64), a 65th distinct registration does not fail fatally: it
succeeds and assigns bit position 64, which lies outside [0, 64) and
outside the 64-bit bitset, refuting the claim that registration fails once
64 positions are assigned. -/
theorem C7_sixty_fifth_registration_allowed :
    r64.component_bit_positions.length = 64 ∧
    (r64.register_component 64).isSome = true ∧
    ((r64.register_component 64).getD r64).get_component_position 64 = 64 ∧
    ((r64.register_component 64).getD r64).component_bit_positions.length = 65 := by decide

/-- C8 counterexample: component type 3 is first assigned bit position 0,
but calling register_component for the same type again reassigns it to
position 1, refuting the claim that the position never changes across
repeated registrations of the same type. -/
theorem C8_reregistration_moves_position :
    rA8.get_component_position 3 = 0 ∧
    ((rA8.register_component 3).getD rA8).get_component_position 3 = 1 := by decide

/-- C9 counterexample: the fresh registry's create_entity returns id 0, but
immediately afterwards the registry stores no bitset for it and the group
table is empty, refuting the claim that the entity starts with a stored
empty bitset and membership in the empty group. -/
theorem C9_create_entity_leaves_no_bitset_no_group :
    (registry.init.create_entity).2 = 0 ∧
    ((registry.init.create_entity).1).contains_entity 0 = false ∧
    ((registry.init.create_entity).1).enitity_groups = [] := by decide

/-- C9 amended: create_entity only draws an id from the allocator; it
leaves the bitset table, the group table, the component pools and the
bit-position map unchanged, so the fresh entity has no stored bitset and no
group membership until its first emplace creates them lazily. -/
theorem C9_amended_create_touches_only_allocator (r : registry) :
    ((r.create_entity).1).component_bitsets = r.component_bitsets ∧
    ((r.create_entity).1).enitity_groups = r.enitity_groups ∧
    ((r.create_entity).1).component_pools = r.component_pools ∧
    ((r.create_entity).1).component_bit_positions = r.component_bit_positions :=
  create_entity_allocator_only r

/-- C8 amended: a component type's bit position, once assigned, is changed
by no operation other than a repeated register_component call for that very
type: create_entity, register_component of a different type, emplace,
remove and remove_entity (the last three for an arbitrary type key) all
leave the assigned position as it was. Only the source behaviour of
re-registering the same type, shown in the counterexample, reassigns it. -/
theorem C8_amended_position_stable (r r2 : registry) (t t2 id v : Nat)
    (hp : r.get_component_position t ≠ tombstone) :
    ((r.create_entity).1.get_component_position t = r.get_component_position t) ∧
    (r.register_component t2 = some r2 → t2 ≠ t →
      r2.get_component_position t = r.get_component_position t) ∧
    (r.emplace t2 id v = some r2 →
      r2.get_component_position t = r.get_component_position t) ∧
    (r.remove t2 id = some r2 →
      r2.get_component_position t = r.get_component_position t) ∧
    (r.remove_entity id = some r2 →
      r2.get_component_position t = r.get_component_position t) := by
  refine ⟨?_, ?_, ?_, ?_, ?_⟩
  · exact get_component_position_congr _ _ _ (create_entity_allocator_only r).2.2.2
  · intro h hne
    unfold registry.register_component at h
    split at h
    · exact Option.noConfusion h
    · cases h
      unfold registry.get_component_position
      rw [assocSet_find_other _ _ _ _ (Ne.symm hne)]
  · intro h
    unfold registry.emplace at h
    split at h
    · cases h
      rfl
    · split at h
      · exact Option.noConfusion h
      · next rr pos heq =>
        have hpres := get_component_pool_position_preserved r rr t t2 pos hp heq
        dsimp only at h
        split at h
        · exact Option.noConfusion h
        · next r3 k heq2 =>
          have h3 := get_component_bitset_ref_fields _ _ _ _ _ heq2
          split at h
          · exact Option.noConfusion h
          · next b hbk =>
            split at h
            · exact Option.noConfusion h
            · cases h
              refine Eq.trans (get_component_position_congr _ rr t ?_) hpres
              simp only [registry.add_entity_to_group, registry.remove_entity_from_group]
              rw [h3.1]
  · intro h
    unfold registry.remove at h
    split at h
    · cases h
      rfl
    · split at h
      · exact Option.noConfusion h
      · next rr pos heq =>
        have hpres := get_component_pool_position_preserved r rr t t2 pos hp heq
        dsimp only at h
        split at h
        · exact Option.noConfusion h
        · next r3 k heq2 =>
          have h3 := get_component_bitset_ref_fields _ _ _ _ _ heq2
          split at h
          · exact Option.noConfusion h
          · next b hbk =>
            split at h
            · exact Option.noConfusion h
            · cases h
              refine Eq.trans (get_component_position_congr _ rr t ?_) hpres
              simp only [registry.add_entity_to_group, registry.remove_entity_from_group]
              rw [h3.1]
  · intro h
    unfold registry.remove_entity at h
    split at h
    · cases h
      rfl
    · split at h
      · exact Option.noConfusion h
      · next r3 k heq2 =>
        have h3 := get_component_bitset_ref_fields _ _ _ _ _ heq2
        split at h
        · exact Option.noConfusion h
        · next b hbk =>
          cases h
          refine get_component_position_congr _ _ t ?_
          simp only [registry.remove_entity_from_group]
          rw [h3.1]

/-- C8 amended, concrete witness: registering a second, different type
leaves the position of type 3 untouched. -/
theorem C8_amended_position_stable_witness :
    rB8.get_component_position 3 = rA8.get_component_position 3 :=
  (C8_amended_position_stable rA8 rB8 3 5 0 7 (by decide)).2.1 (by decide) (by decide)

/-- C10: remove of an unregistered component type on an alive entity does
not fail: it silently registers the type, assigning it the next free bit
position (the current pool count, which under the stated well-formedness of
the position map is the least unassigned position) and appending one fresh
empty pool, and otherwise leaves the entity bitset table, every existing
pool, the allocator queue and the id frontier unchanged. The hypotheses say
the entity is alive with a readable bitset entry whose bit at the new
position is clear, the type is unregistered, the assigned positions are
exactly 0..pools-1, and at most 64 positions are assigned. -/
theorem C10_remove_unregistered_registers_then_noops (r : registry) (t id : Nat)
    (hid : r.contains_entity id = true)
    (hk : r.component_bitsets.get_dense_index id < r.component_bitsets.dense_arr.length)
    (hreg : r.get_component_position t = tombstone)
    (hb : (r.component_bitsets.dense_arr.getD (r.component_bitsets.get_dense_index id) 0).testBit
            r.component_pools.length = false)
    (hfree : r.component_bit_positions.map Prod.snd = List.range r.component_pools.length)
    (hlen : r.component_bit_positions.length ≤ MAX_COMPONENT_COUNT) :
    (r.remove t id).isSome = true ∧
    (∀ p ∈ r.component_bit_positions, p.2 ≠ r.component_pools.length) ∧
    (∀ q, q < r.component_pools.length → q ∈ r.component_bit_positions.map Prod.snd) ∧
    (∀ r2, r.remove t id = some r2 →
      r2.component_bit_positions =
        r.component_bit_positions ++ [(t, r.component_pools.length)] ∧
      r2.component_pools = r.component_pools ++ [sparse_set.init] ∧
      r2.component_bitsets = r.component_bitsets ∧
      r2.available_entity_ids = r.available_entity_ids ∧
      r2.entity_limit = r.entity_limit) := by
  have hc2 : r.component_bitsets.contains id = true := hid
  have hpl : r.component_bit_positions.length = r.component_pools.length := by
    have h1 := congrArg List.length hfree
    simpa using h1
  have hn64 : r.component_pools.length ≤ 64 := by
    rw [← hpl]
    simpa [MAX_COMPONENT_COUNT] using hlen
  have hntomb : ¬ (r.component_pools.length = tombstone) := by
    simp only [tombstone]
    omega
  have hfind : assocFind r.component_bit_positions t = none := by
    cases hf : assocFind r.component_bit_positions t with
    | none => rfl
    | some p =>
      exfalso
      have hp2 : p ∈ r.component_bit_positions.map Prod.snd := assocFind_mem_snd _ _ _ hf
      rw [hfree] at hp2
      have hplt : p < r.component_pools.length := List.mem_range.mp hp2
      have hpt : p = tombstone := by
        unfold registry.get_component_position at hreg
        rw [hf] at hreg
        exact hreg
      rw [hpt] at hplt
      simp only [tombstone] at hplt
      omega
  have hregc : r.register_component t =
      some { r with
              component_bit_positions :=
                r.component_bit_positions ++ [(t, r.component_pools.length)],
              component_pools := r.component_pools ++ [sparse_set.init] } := by
    unfold registry.register_component
    rw [if_neg (by simp only [MAX_COMPONENT_COUNT] at hlen ⊢; omega)]
    rw [assocSet_absent _ _ _ hfind]
  have hposn : ({ r with
              component_bit_positions :=
                r.component_bit_positions ++ [(t, r.component_pools.length)],
              component_pools := r.component_pools ++ [sparse_set.init] } : registry
          ).get_component_position t = r.component_pools.length := by
    have h2 := assocFind_append_self r.component_bit_positions t r.component_pools.length hfind
    unfold registry.get_component_position
    dsimp only
    rw [h2]
  have hgcp : r.get_component_pool t true =
      some ({ r with
              component_bit_positions :=
                r.component_bit_positions ++ [(t, r.component_pools.length)],
              component_pools := r.component_pools ++ [sparse_set.init] },
            r.component_pools.length) := by
    unfold registry.get_component_pool
    rw [if_pos hreg, if_pos rfl, hregc]
    dsimp only
    rw [hposn]
  have hGetD : (r.component_pools ++ [sparse_set.init]).getD r.component_pools.length sparse_set.init
      = sparse_set.init := listGetDAppendLength _ _ _
  have hSetPool : (r.component_pools ++ [sparse_set.init]).set r.component_pools.length sparse_set.init
      = r.component_pools ++ [sparse_set.init] := listSetAppendLast _ _ _
  have hkv : r.component_bitsets.dense_arr[r.component_bitsets.get_dense_index id]? =
      some (r.component_bitsets.dense_arr.getD (r.component_bitsets.get_dense_index id) 0) :=
    listGetElemGetD _ _ _ hk
  have hsetK : r.component_bitsets.dense_arr.set (r.component_bitsets.get_dense_index id)
      (r.component_bitsets.dense_arr.getD (r.component_bitsets.get_dense_index id) 0)
      = r.component_bitsets.dense_arr := listSetSame _ _ _ hkv
  have hb2 : bitSet0 (r.component_bitsets.dense_arr.getD (r.component_bitsets.get_dense_index id) 0)
      r.component_pools.length
      = r.component_bitsets.dense_arr.getD (r.component_bitsets.get_dense_index id) 0 := by
    simp only [bitSet0, hb, Bool.false_eq_true, if_false]
  have hRef : ({ r with
              component_bit_positions :=
                r.component_bit_positions ++ [(t, r.component_pools.length)],
              component_pools := r.component_pools ++ [sparse_set.init] } : registry
          ).get_component_bitset_ref id false =
      some ({ r with
              component_bit_positions :=
                r.component_bit_positions ++ [(t, r.component_pools.length)],
              component_pools := r.component_pools ++ [sparse_set.init] },
            r.component_bitsets.get_dense_index id) := by
    simp [registry.get_component_bitset_ref, hc2]
  have hpos6 : (({ r with
              component_bit_positions :=
                r.component_bit_positions ++ [(t, r.component_pools.length)],
              component_pools := r.component_pools ++ [sparse_set.init] } : registry
          ).remove_entity_from_group
            (r.component_bitsets.dense_arr.getD (r.component_bitsets.get_dense_index id) 0) id
          ).get_component_position t = r.component_pools.length := by
    refine Eq.trans (get_component_position_congr _ _ t ?_) hposn
    simp [registry.remove_entity_from_group]
  have hEval : r.remove t id = some ((({ r with
        component_bit_positions := r.component_bit_positions ++ [(t, r.component_pools.length)],
        component_pools := r.component_pools ++ [sparse_set.init] } : registry
      ).remove_entity_from_group
        (r.component_bitsets.dense_arr.getD (r.component_bitsets.get_dense_index id) 0) id
      ).add_entity_to_group
        (r.component_bitsets.dense_arr.getD (r.component_bitsets.get_dense_index id) 0) id) := by
    unfold registry.remove
    rw [if_neg (by simp [hid])]
    rw [hgcp]
    dsimp only
    rw [hGetD, sparse_remove_init, hSetPool, hRef]
    dsimp only
    rw [hkv]
    dsimp only
    rw [hpos6, if_neg hntomb, hb2]
    simp only [registry.remove_entity_from_group]
    rw [hsetK]
  refine ⟨?_, ?_, ?_, ?_⟩
  · rw [hEval]
    rfl
  · intro p hp
    have hmem : p.2 ∈ r.component_bit_positions.map Prod.snd := List.mem_map_of_mem _ hp
    rw [hfree] at hmem
    have := List.mem_range.mp hmem
    omega
  · intro q hq
    rw [hfree]
    exact List.mem_range.mpr hq
  · intro r2 h2
    rw [hEval] at h2
    cases h2
    exact ⟨rfl, rfl, rfl, rfl, rfl⟩

/-- C10, concrete witness: in rW (entity 0 alive, only type 0 registered),
remove of the unregistered type 1 succeeds, registers type 1 at the next
free position 1 with a fresh empty pool, and leaves the bitset table, the
existing pool, the allocator queue and the frontier unchanged. -/
theorem C10_remove_unregistered_registers_then_noops_witness :
    rW.remove 1 0 = some rW2 ∧
    rW2.component_bit_positions = rW.component_bit_positions ++ [(1, rW.component_pools.length)] ∧
    rW2.component_pools = rW.component_pools ++ [sparse_set.init] ∧
    rW2.component_bitsets = rW.component_bitsets ∧
    rW2.available_entity_ids = rW.available_entity_ids := by
  have h := C10_remove_unregistered_registers_then_noops rW 1 0 (by decide) (by decide)
    (by decide) (by decide) (by decide) (by decide)
  have h1 := h.1
  cases hE : rW.remove 1 0 with
  | none => rw [hE] at h1; exact absurd h1 (by simp)
  | some rx =>
    have hs : rW.remove 1 0 = some rW2 := by
      unfold rW2
      rw [hE]
      rfl
    have hf := (h.2.2.2) rW2 hs
    exact ⟨hE ▸ hs, hf.1, hf.2.1, hf.2.2.1, hf.2.2.2.1⟩

end lamecs
